import Mathlib

/-!
Verification of the core data-processing logic of the Mountain Power
"Analysis File Generator" (src/analysis-tool.py): the field analyzer
(`detect_fields`), the row reconciler (`build_analysis_rows`), the four
derived sheet builders and the sheet layout of the workbook emitter
(`export_to_bytes`).

Modelling conventions:
* A Python scalar cell value is a `Value` (string, integer, boolean or
  `None`); float cells are outside the model, no claim depends on them.
* A Python dict row is an association list `Row` in insertion order with
  unique keys; `dict.get` is first-match lookup, a dict comprehension in
  which a later entry overwrites an earlier one is modelled by a
  last-match lookup over the listed entries (`lookupNorm`, `lookupLast`).
* Python `set` iteration order is unspecified; `collectCols` fixes
  first-appearance order, which only matters when two distinct source
  headers collide after `lower().strip()`.
* Fill ratios are exact rationals; CPython computes them in binary
  floating point, which agrees at the boundary values the claims are
  about (`0`, `4/5`).
-/

/-- A Python scalar value as it occurs in a row cell. -/
inductive Value where
  | vnone
  | str (s : String)
  | num (n : Int)
  | bool (b : Bool)
deriving DecidableEq

/-- Python `str(v)`. -/
def Value.toStr : Value → String
  | .vnone => "None"
  | .str s => s
  | .num n => toString n
  | .bool b => if b then "True" else "False"

/-- Python truthiness of a scalar value. -/
def Value.truthy : Value → Bool
  | .vnone => false
  | .str s => s ≠ ""
  | .num n => n ≠ 0
  | .bool b => b

/-- Python `a or b`: `a` if truthy, else `b`. -/
def orV (a b : Value) : Value := if a.truthy then a else b

/-- Is the value a Python `bool`? -/
def Value.isBool : Value → Bool
  | .bool _ => true
  | _ => false

/-- Python `s.lower()` (ASCII-relevant part), written on the character list
so that it evaluates inside the kernel. -/
def pyLower (s : String) : String := String.mk (s.data.map Char.toLower)

/-- Python `s.upper()`. -/
def pyUpper (s : String) : String := String.mk (s.data.map Char.toUpper)

/-- Python `s.strip()`: drop leading and trailing whitespace. -/
def pyStrip (s : String) : String :=
  String.mk (((s.data.dropWhile Char.isWhitespace).reverse.dropWhile Char.isWhitespace).reverse)

/-- The shared guard `v is not None and str(v).strip()`: the value is
present and non-blank after string conversion and trimming. -/
def valueNonEmpty (v : Value) : Bool := v ≠ Value.vnone && pyStrip v.toStr ≠ ""

/-- A row: a Python dict from header string to scalar, in insertion order. -/
abbrev Row := List (String × Value)

/-- Python `row.get(k, d)`: first entry with key `k`, else the default. -/
def getValD (r : Row) (k : String) (d : Value) : Value :=
  match r with
  | [] => d
  | (k', v) :: rest => if k' = k then v else getValD rest k d

/-- Python `row.get(k)`: lookup defaulting to `None`. -/
def getVal (r : Row) (k : String) : Value := getValD r k .vnone

/-- Python subscript `row[k]`: `none` models a raised `KeyError`. -/
def getEntry? (r : Row) (k : String) : Option Value :=
  match r with
  | [] => none
  | (k', v) :: rest => if k' = k then some v else getEntry? rest k

/-- Python `row[k] = v` on a dict: overwrite in place if the key exists,
else append. -/
def setVal (r : Row) (k : String) (v : Value) : Row :=
  match r with
  | [] => [(k, v)]
  | (k', v') :: rest => if k' = k then (k', v) :: rest else (k', v') :: setVal rest k v

/-- Header normalization `k.lower().strip()` used for all column matching. -/
def normKey (k : String) : String := pyStrip (pyLower k)

/-- The dict comprehension `{k.lower().strip(): k for k in keys}` followed by
`.get(n)`: the LAST key whose normalization is `n` wins. -/
def lookupNorm (keys : List String) (n : String) : Option String :=
  match keys with
  | [] => none
  | k :: rest =>
      match lookupNorm rest n with
      | some r => some r
      | none => if normKey k = n then some k else none

/-- Lookup in a dict built by repeated assignment (`m[k] = r`) when the
entries are listed in assignment order: the LAST assignment wins. -/
def lookupLast (m : List (String × Row)) (k : String) : Option Row :=
  match m with
  | [] => none
  | (k', r) :: rest =>
      match lookupLast rest k with
      | some r' => some r'
      | none => if k' = k then some r else none

/-- The fixed 42-column target schema `ANALYSIS_COLUMNS`. -/
def ANALYSIS_COLUMNS : List String := [
  "ITEM", "Listing SKU", "Blocked", "Blocked Notes", "Brand", "Product Type",
  "Deposco Category", "Amazon Title", "eBay Title", "Amazon Trademark Brand List",
  "Amazon Category", "Store Category", "Store Featured Category", "Keywords",
  "Amazon Description", "Applications", "Replaces", "Fitment", "Store Fitment",
  "Division Listing Type", "Length", "Width", "Height", "Weight", "Images",
  "Unit Cost", "BIN", "Vendor", "Source", "Partslink Numbers",
  "Manufacturer Part Number", "Interchange Part Number", "Other Part Number",
  "OEM Interchange Part Number 1", "OEM Interchange Part Number 2",
  "OEM Interchange Part Number 3", "OEM Interchange Part Number 4",
  "OEM Interchange Part Number 5", "OEM Interchange Part Number 6",
  "OEM Interchange Part Number 7", "OEM Interchange Part Number 8",
  "OEM Interchange Part Number 9"]

/-- `ITEM_SHEET_DEFAULTS`, the fixed operational defaults spliced into every
item-master row. -/
def ITEM_SHEET_DEFAULTS : Row := [
  ("Drop Ship", .num 1), ("Reorder Lead Time", .num 0), ("Minimum Order Quantity", .num 0),
  ("Reorder Point", .num 0), ("Reorder Quantity", .num 0), ("Inventory Tracking Enabled", .bool true),
  ("Shippable Flag", .bool true), ("FL Reorder Point", .num 0), ("FL Reorder Quantity", .num 0),
  ("Default Receive Quantity", .num 1)]

/-- First-occurrence deduplication, the content of the `seen` accumulator
pattern used by the deduplicated sheet builders. -/
def dedupGo {α : Type} [DecidableEq α] (seen : List α) : List α → List α
  | [] => []
  | x :: xs => if x ∈ seen then dedupGo seen xs else x :: dedupGo (x :: seen) xs

/-- Distinct elements of a list, in first-occurrence order. -/
def dedupFirst {α : Type} [DecidableEq α] (l : List α) : List α := dedupGo [] l

/-- The union of all header strings across the rows (a Python `set`,
determinized to first-appearance order). -/
def collectCols (data : List Row) : List String :=
  dedupFirst (data.flatMap (fun r => r.map Prod.fst))

/-- Result of `detect_fields`: the `present` / `missing` / `partial` lists. -/
structure FieldScan where
  present : List (String × String × ℚ)
  missing : List String
  partialCols : List (String × String × ℚ)
deriving DecidableEq

/-- `filled`: how many rows have a non-empty value under the matched header. -/
def colFilled (data : List Row) (matched : String) : Nat :=
  (data.filter (fun row => valueNonEmpty (getVal row matched))).length

/-- `pct = filled / len(data) if data else 0`, as an exact rational. -/
def colPct (data : List Row) (matched : String) : ℚ :=
  if data.length = 0 then 0 else (colFilled data matched : ℚ) / (data.length : ℚ)

/-- The classification loop of `detect_fields` over the target columns
(the source appends to three lists in column order; structural recursion
prepending in the same order builds the same lists). -/
def detectGo (data : List Row) (cols : List String) : List String → FieldScan
  | [] => ⟨[], [], []⟩
  | col :: rest =>
      let r := detectGo data cols rest
      match lookupNorm cols (normKey col) with
      | some matched =>
          if matched ≠ "" then
            if colPct data matched > 0.8 then
              ⟨(col, matched, colPct data matched) :: r.present, r.missing, r.partialCols⟩
            else if colPct data matched > 0 then
              ⟨r.present, r.missing, (col, matched, colPct data matched) :: r.partialCols⟩
            else ⟨r.present, col :: r.missing, r.partialCols⟩
          else ⟨r.present, col :: r.missing, r.partialCols⟩
      | none => ⟨r.present, col :: r.missing, r.partialCols⟩

/-- `detect_fields(data)`: per-column fill coverage of the 42 target
columns under case-insensitive trimmed header matching. -/
def detect_fields (data : List Row) : FieldScan :=
  if data = [] then ⟨[], ANALYSIS_COLUMNS, []⟩
  else detectGo data (collectCols data) ANALYSIS_COLUMNS

/-- The supplemental-map entry contributed by one supplemental row:
identity from the first truthy of `ITEM`, `Item`, `SKU`, `Listing SKU`,
else the row's first value; skipped entirely when that key is falsy. -/
def suppEntry (r : Row) : List (String × Row) :=
  let key := orV (orV (orV (getVal r "ITEM") (getVal r "Item")) (getVal r "SKU")) (getVal r "Listing SKU")
  let key2 := if key.truthy then key
              else match r.map Prod.snd with
                   | [] => Value.vnone
                   | v :: _ => v
  if key2.truthy then [(pyUpper (pyStrip key2.toStr), r)] else []

/-- `supp_map`: the per-identity lookup dict built from the supplemental
rows, in assignment order (read with `lookupLast`). -/
def mkSuppMap : List Row → List (String × Row)
  | [] => []
  | r :: rest => suppEntry r ++ mkSuppMap rest

/-- `str(row.get("ITEM") or row.get("Item") or "").strip().upper()`: the
identity key a source row uses for the supplemental lookup. -/
def itemKeyOf (row : Row) : String :=
  pyUpper (pyStrip (orV (orV (getVal row "ITEM") (getVal row "Item")) (.str "")).toStr)

/-- Step 1 of the precedence chain: the value from the row itself, via the
matched header `src_key`, when the guard `src_key and row.get(src_key) is
not None and str(row.get(src_key, "")).strip()` passes; else `None`.  The
same code shape performs the supplemental-row lookup (step 2). -/
def srcStep (row : Row) : Option String → Value
  | some k => if k ≠ "" && valueNonEmpty (getVal row k) then getVal row k else .vnone
  | none => .vnone

/-- Step 2 body: `if supp:` (a nonempty dict is truthy) then the same
guarded header match against the supplemental row. -/
def suppRowStep (supp : Row) (col : String) : Value :=
  if supp ≠ [] then srcStep supp (lookupNorm (supp.map Prod.fst) (normKey col))
  else .vnone

/-- Step 2 dispatch on `supp_map.get(item_key)`. -/
def suppLook : Option Row → String → Value
  | some supp, col => suppRowStep supp col
  | none, _ => .vnone

/-- `if val is None:` enter the supplemental lookup, else keep `val`. -/
def resolveSupp (row : Row) (suppMap : List (String × Row)) (col : String) (val : Value) : Value :=
  if val = .vnone then suppLook (lookupLast suppMap (itemKeyOf row)) col else val

/-- Step 3: `if val is None and col in global_defaults and
str(global_defaults[col]).strip(): val = global_defaults[col]`. -/
def gdStep (gd : Row) (col : String) : Value :=
  match getEntry? gd col with
  | some dv => if pyStrip dv.toStr ≠ "" then dv else .vnone
  | none => .vnone

/-- `if val is None:` enter the global-default fallback, else keep `val`. -/
def resolveGd (gd : Row) (col : String) (val2 : Value) : Value :=
  if val2 = .vnone then gdStep gd col else val2

/-- The per-column precedence chain of `build_analysis_rows`: source row
value, else supplemental value, else non-blank global default, else `None`. -/
def resolveVal (row : Row) (suppMap : List (String × Row)) (gd : Row) (col : String) : Value :=
  resolveGd gd col
    (resolveSupp row suppMap col (srcStep row (lookupNorm (row.map Prod.fst) (normKey col))))

/-- `out[col] = val if val is not None else ""`. -/
def outVal (row : Row) (suppMap : List (String × Row)) (gd : Row) (col : String) : Value :=
  let v := resolveVal row suppMap gd col
  if v = .vnone then .str "" else v

/-- One iteration of the reconciliation loop: build the 42-column dict for
one source row, then coerce a falsy `Blocked` to boolean `False`. -/
def canonicalizeRow (suppMap : List (String × Row)) (gd : Row) (row : Row) : Row :=
  let out := ANALYSIS_COLUMNS.map (fun col => (col, outVal row suppMap gd col))
  if (getVal out "Blocked").truthy then out else setVal out "Blocked" (.bool false)

/-- `supp_map = {}` unless supplemental data is provided. -/
def suppMapOf : Option (List Row) → List (String × Row)
  | none => []
  | some sd => mkSuppMap sd

/-- `build_analysis_rows(source_data, global_defaults, supp_data)`: the row
reconciler, one canonical row per source row. -/
def build_analysis_rows (source : List Row) (gd : Row) (supp : Option (List Row)) : List Row :=
  source.map (canonicalizeRow (suppMapOf supp) gd)

/-- The item-vendor row built for one first-seen item. -/
def vendorRowOf (r : Row) (item : Value) : Row :=
  [("Fulfillment Type", .str ""), ("Item", item), ("Trading Partner", getValD r "Vendor" (.str "")),
   ("SKU/UPC", item), ("Unit Cost", getValD r "Unit Cost" (.str "")),
   ("Is Preferred Vendor", .bool true), ("Quantity", .str "")]

/-- The dedup loop of `build_item_vendor_sheet` (`seen` is a Python set,
modelled as the list of values added so far). -/
def itemVendorGo (seen : List Value) : List Row → List Row
  | [] => []
  | r :: rest =>
      let item := getVal r "ITEM"
      if item.truthy && !(item ∈ seen) then vendorRowOf r item :: itemVendorGo (item :: seen) rest
      else itemVendorGo seen rest

/-- `build_item_vendor_sheet(rows)`. -/
def build_item_vendor_sheet (rows : List Row) : List Row := itemVendorGo [] rows

/-- The item-master row built for one first-seen item (dict literal order,
with `ITEM_SHEET_DEFAULTS` spliced in the middle). -/
def itemRowOf (r : Row) (item : Value) (harmonized_code origin_country : String) : Row :=
  [("ID", .str ""), ("Number", item), ("Name", item),
   ("Long Description", getValD r "eBay Title" (.str "")), ("Unit Cost", getValD r "Unit Cost" (.str ""))]
  ++ ITEM_SHEET_DEFAULTS ++
  [("Trading Partner", getValD r "Vendor" (.str "")), ("Retail Price", getValD r "BIN" (.str "")),
   ("Product Category", orV (getVal r "Product Type") (getValD r "Deposco Category" (.str ""))),
   ("Harmonized Code", .str harmonized_code), ("Short Description", .str ""),
   ("Origin Country", .str origin_country)]

/-- The dedup loop of `build_item_sheet`. -/
def itemSheetGo (harmonized_code origin_country : String) (seen : List Value) : List Row → List Row
  | [] => []
  | r :: rest =>
      let item := getVal r "ITEM"
      if item.truthy && !(item ∈ seen) then
        itemRowOf r item harmonized_code origin_country :: itemSheetGo harmonized_code origin_country (item :: seen) rest
      else itemSheetGo harmonized_code origin_country seen rest

/-- `build_item_sheet(rows, harmonized_code, origin_country)`. -/
def build_item_sheet (rows : List Row) (harmonized_code origin_country : String) : List Row :=
  itemSheetGo harmonized_code origin_country [] rows

/-- The pack row built for one first-seen item; the composite key is the
f-string `"<item>--Each--1"`. -/
def packRowOf (r : Row) (item : Value) : Row :=
  [("Pack Key", .str (item.toStr ++ "--Each--1")), ("Item", item), ("Pack Type", .str "Each"),
   ("Quantity", .num 1),
   ("Length", getValD r "Length" (.str "")), ("Length Uom", .str "Inch"),
   ("Width", getValD r "Width" (.str "")), ("Width Uom", .str "Inch"),
   ("Height", getValD r "Height" (.str "")), ("Height Uom", .str "Inch"),
   ("Volume", .str ""), ("Volume Uom", .str ""),
   ("Weight", getValD r "Weight" (.str "")), ("Weight Uom", .str "Pound")]

/-- The dedup loop of `build_pack_sheet`. -/
def packGo (seen : List Value) : List Row → List Row
  | [] => []
  | r :: rest =>
      let item := getVal r "ITEM"
      if item.truthy && !(item ∈ seen) then packRowOf r item :: packGo (item :: seen) rest
      else packGo seen rest

/-- `build_pack_sheet(rows)`. -/
def build_pack_sheet (rows : List Row) : List Row := packGo [] rows

/-- `build_item_upc_sheet(rows)`: one entry per canonical row, no
deduplication. -/
def build_item_upc_sheet (rows : List Row) : List Row :=
  rows.map (fun r =>
    [("ITEM", getValD r "ITEM" (.str "")), ("UPC", getValD r "Listing SKU" (.str "")),
     ("Source", .str "Listings")])

/-- Sheet structure of `export_to_bytes`: the workbook as the ordered list
of (sheet name, rows written to it).  `openpyxl.Workbook()` starts with one
active sheet, which is retitled "Rithum Upload" and always present even
when `write_sheet` writes nothing to it; each derived sheet is created only
when its row collection is non-empty.  Cell styling and serialization to
bytes are outside the model. -/
def export_to_bytes (analysis_rows : List Row) (harmonized_code origin_country : String) :
    List (String × List Row) :=
  [("Rithum Upload", analysis_rows)]
  ++ (if build_item_vendor_sheet analysis_rows ≠ [] then
        [("ItemVendor", build_item_vendor_sheet analysis_rows)] else [])
  ++ (if build_item_sheet analysis_rows harmonized_code origin_country ≠ [] then
        [("Item", build_item_sheet analysis_rows harmonized_code origin_country)] else [])
  ++ (if build_pack_sheet analysis_rows ≠ [] then
        [("Pack", build_pack_sheet analysis_rows)] else [])
  ++ (if build_item_upc_sheet analysis_rows ≠ [] then
        [("ItemUPC", build_item_upc_sheet analysis_rows)] else [])

/-- A loop body that may raise, sequenced over a list (`none` models an
uncaught Python exception). -/
def mapOption {α β : Type} (f : α → Option β) : List α → Option (List β)
  | [] => some []
  | a :: l =>
      match f a, mapOption f l with
      | some b, some bs => some (b :: bs)
      | _, _ => none

/-- `suppEntry` with every Python subscript made explicit: the only one is
the guarded `vals[0]`. -/
def suppEntryChecked (r : Row) : Option (List (String × Row)) :=
  let key := orV (orV (orV (getVal r "ITEM") (getVal r "Item")) (getVal r "SKU")) (getVal r "Listing SKU")
  let key2? : Option Value :=
    if key.truthy then some key
    else
      let vals := r.map Prod.snd
      if vals ≠ [] then vals.get? 0 else some Value.vnone
  match key2? with
  | none => none
  | some key2 => some (if key2.truthy then [(pyUpper (pyStrip key2.toStr), r)] else [])

/-- `mkSuppMap` with explicit subscripts. -/
def mkSuppMapChecked : List Row → Option (List (String × Row))
  | [] => some []
  | r :: rest =>
      match suppEntryChecked r, mkSuppMapChecked rest with
      | some e, some m => some (e ++ m)
      | _, _ => none

/-- `srcStep` with the Python subscript `row[src_key]` (and likewise
`supp[supp_key]`) made explicit as a fallible lookup instead of a
defaulted `.get`. -/
def srcStepChecked (row : Row) : Option String → Option Value
  | some k => if k ≠ "" && valueNonEmpty (getVal row k) then getEntry? row k else some .vnone
  | none => some .vnone

/-- `suppRowStep` with explicit subscripts. -/
def suppRowStepChecked (supp : Row) (col : String) : Option Value :=
  if supp ≠ [] then srcStepChecked supp (lookupNorm (supp.map Prod.fst) (normKey col))
  else some .vnone

/-- `suppLook` with explicit subscripts. -/
def suppLookChecked : Option Row → String → Option Value
  | some supp, col => suppRowStepChecked supp col
  | none, _ => some .vnone

/-- `resolveVal` with every Python subscript explicit; `none` (a raised
exception) anywhere aborts the whole computation. -/
def resolveValChecked (row : Row) (suppMap : List (String × Row)) (gd : Row) (col : String) :
    Option Value :=
  (srcStepChecked row (lookupNorm (row.map Prod.fst) (normKey col))).bind (fun val =>
    (if val = .vnone then suppLookChecked (lookupLast suppMap (itemKeyOf row)) col
     else some val).bind (fun val2 =>
      some (resolveGd gd col val2)))

/-- `outVal` with explicit subscripts. -/
def outValChecked (row : Row) (suppMap : List (String × Row)) (gd : Row) (col : String) :
    Option Value :=
  (resolveValChecked row suppMap gd col).map (fun v => if v = .vnone then .str "" else v)

/-- `canonicalizeRow` with explicit subscripts. -/
def canonicalizeRowChecked (suppMap : List (String × Row)) (gd : Row) (row : Row) : Option Row :=
  (mapOption (fun col => (outValChecked row suppMap gd col).map (fun v => (col, v)))
      ANALYSIS_COLUMNS).map
    (fun out => if (getVal out "Blocked").truthy then out else setVal out "Blocked" (.bool false))

/-- `build_analysis_rows` with every Python subscript explicit: `none`
models an uncaught exception anywhere in the reconciliation loop. -/
def build_analysis_rowsChecked (source : List Row) (gd : Row) (supp : Option (List Row)) :
    Option (List Row) :=
  (match supp with
   | none => some []
   | some sd => mkSuppMapChecked sd).bind
    (fun sm => mapOption (canonicalizeRowChecked sm gd) source)

theorem lookupNorm_mem {keys : List String} {n k : String} (h : lookupNorm keys n = some k) :
    k ∈ keys := by
  induction keys with
  | nil => simp [lookupNorm] at h
  | cons a rest ih =>
      rw [lookupNorm] at h
      cases hr : lookupNorm rest n with
      | some r => rw [hr] at h; exact List.mem_cons_of_mem _ (ih (hr.trans h))
      | none =>
          rw [hr] at h
          by_cases hn : normKey a = n
          · simp [hn] at h; exact h ▸ List.mem_cons_self a rest
          · simp [hn] at h

theorem lookupNorm_norm {keys : List String} {n k : String} (h : lookupNorm keys n = some k) :
    normKey k = n := by
  induction keys with
  | nil => simp [lookupNorm] at h
  | cons a rest ih =>
      rw [lookupNorm] at h
      cases hr : lookupNorm rest n with
      | some r => rw [hr] at h; exact ih (hr.trans h)
      | none =>
          rw [hr] at h
          by_cases hn : normKey a = n
          · simp [hn] at h; exact h ▸ hn
          · simp [hn] at h

theorem getEntry?_eq_getVal {r : Row} {k : String} (h : k ∈ r.map Prod.fst) :
    getEntry? r k = some (getVal r k) := by
  induction r with
  | nil => simp at h
  | cons p rest ih =>
      by_cases hk : p.1 = k
      · cases p; simp_all [getEntry?, getVal, getValD]
      · cases p with
        | mk k' v =>
            simp only [List.map_cons, List.mem_cons] at h
            rw [getEntry?, getVal, getValD]
            simp only [hk, if_false]
            exact ih (h.resolve_left (fun he => hk he.symm))

theorem getVal_map_self {l : List String} {c : String} (f : String → Value) (h : c ∈ l) :
    getVal (l.map (fun x => (x, f x))) c = f c := by
  induction l with
  | nil => simp at h
  | cons a rest ih =>
      rw [List.map_cons, getVal, getValD]
      by_cases ha : a = c
      · simp [ha]
      · have hm : c ∈ rest := (List.mem_cons.mp h).resolve_left (fun he => ha he.symm)
        rw [if_neg ha]
        exact ih hm

theorem getVal_setVal_self (r : Row) (k : String) (v : Value) :
    getVal (setVal r k v) k = v := by
  induction r with
  | nil => simp [setVal, getVal, getValD]
  | cons p rest ih =>
      cases p with
      | mk k' v' =>
          by_cases hk : k' = k
          · simp [setVal, getVal, getValD, hk]
          · rw [setVal, if_neg hk, getVal, getValD, if_neg hk]
            exact ih

theorem getVal_setVal_ne (r : Row) {k k' : String} (v : Value) (h : k' ≠ k) :
    getVal (setVal r k v) k' = getVal r k' := by
  induction r with
  | nil => simp [setVal, getVal, getValD, Ne.symm h]
  | cons p rest ih =>
      cases p with
      | mk a b =>
          by_cases ha : a = k
          · rw [setVal, if_pos ha, getVal, getValD, getVal, getValD]
            have hak : ¬ a = k' := fun he => h (he ▸ ha)
            rw [if_neg hak, if_neg hak]
          · rw [setVal, if_neg ha, getVal, getValD, getVal, getValD]
            by_cases hc : a = k'
            · rw [if_pos hc, if_pos hc]
            · rw [if_neg hc, if_neg hc]
              exact ih

theorem setVal_keys {r : Row} {k : String} (v : Value) (h : k ∈ r.map Prod.fst) :
    (setVal r k v).map Prod.fst = r.map Prod.fst := by
  induction r with
  | nil => simp at h
  | cons p rest ih =>
      cases p with
      | mk a b =>
          by_cases ha : a = k
          · simp [setVal, ha]
          · simp only [List.map_cons, List.mem_cons] at h
            have : k ∈ rest.map Prod.fst := h.resolve_left (fun he => ha he.symm)
            simp [setVal, ha, ih this]

theorem mapOption_eq_some {α β : Type} {f : α → Option β} {g : α → β} :
    ∀ {l : List α}, (∀ a ∈ l, f a = some (g a)) → mapOption f l = some (l.map g)
  | [], _ => rfl
  | a :: l, h => by
      rw [mapOption, h a (List.mem_cons_self a l),
        mapOption_eq_some (fun x hx => h x (List.mem_cons_of_mem a hx))]
      simp

theorem mem_dedupGo {α : Type} [DecidableEq α] :
    ∀ (l : List α) (seen : List α) (x : α), x ∈ dedupGo seen l ↔ x ∈ l ∧ x ∉ seen
  | [], seen, x => by simp [dedupGo]
  | a :: l, seen, x => by
      rw [dedupGo]
      by_cases ha : a ∈ seen
      · rw [if_pos ha, mem_dedupGo l seen x]
        constructor
        · exact fun ⟨h1, h2⟩ => ⟨List.mem_cons_of_mem a h1, h2⟩
        · rintro ⟨h1, h2⟩
          rcases List.mem_cons.mp h1 with rfl | h1
          · exact absurd ha h2
          · exact ⟨h1, h2⟩
      · rw [if_neg ha]
        constructor
        · intro hx
          rcases List.mem_cons.mp hx with rfl | hx
          · exact ⟨List.mem_cons_self _ _, ha⟩
          · obtain ⟨h1, h2⟩ := (mem_dedupGo l (a :: seen) x).mp hx
            exact ⟨List.mem_cons_of_mem a h1, fun hs => h2 (List.mem_cons_of_mem a hs)⟩
        · rintro ⟨h1, h2⟩
          rcases List.mem_cons.mp h1 with rfl | h1
          · exact List.mem_cons_self x _
          · by_cases hax : x = a
            · exact hax ▸ List.mem_cons_self a _
            · refine List.mem_cons_of_mem a ((mem_dedupGo l (a :: seen) x).mpr ⟨h1, fun hd => ?_⟩)
              rcases List.mem_cons.mp hd with hh | hh
              · exact hax hh
              · exact h2 hh

theorem dedupGo_nodup {α : Type} [DecidableEq α] :
    ∀ (l : List α) (seen : List α), (dedupGo seen l).Nodup
  | [], seen => by simp [dedupGo]
  | a :: l, seen => by
      rw [dedupGo]
      by_cases ha : a ∈ seen
      · rw [if_pos ha]; exact dedupGo_nodup l seen
      · rw [if_neg ha]
        refine List.nodup_cons.mpr ⟨fun hx => ?_, dedupGo_nodup l (a :: seen)⟩
        exact ((mem_dedupGo l (a :: seen) a).mp hx).2 (List.mem_cons_self a seen)

theorem blocked_mem_cols : "Blocked" ∈ ANALYSIS_COLUMNS := by decide

theorem normKey_cols_ne : ∀ c ∈ ANALYSIS_COLUMNS, normKey c ≠ "" := by decide

theorem canonicalizeRow_keys (sm : List (String × Row)) (gd : Row) (row : Row) :
    (canonicalizeRow sm gd row).map Prod.fst = ANALYSIS_COLUMNS := by
  simp only [canonicalizeRow]
  by_cases htr : (getVal (ANALYSIS_COLUMNS.map (fun col => (col, outVal row sm gd col))) "Blocked").truthy = true
  · rw [if_pos htr]
    rfl
  · rw [if_neg htr]
    have hb : "Blocked" ∈ (ANALYSIS_COLUMNS.map (fun col => (col, outVal row sm gd col))).map Prod.fst := by
      rw [List.map_map]
      exact List.mem_map.mpr ⟨"Blocked", blocked_mem_cols, rfl⟩
    rw [setVal_keys _ hb]
    rfl

theorem canonicalizeRow_getVal (sm : List (String × Row)) (gd : Row) (row : Row) {c : String}
    (hc : c ∈ ANALYSIS_COLUMNS) :
    getVal (canonicalizeRow sm gd row) c =
      if c = "Blocked" then
        (if (outVal row sm gd "Blocked").truthy then outVal row sm gd "Blocked" else .bool false)
      else outVal row sm gd c := by
  simp only [canonicalizeRow]
  have hout : ∀ d ∈ ANALYSIS_COLUMNS,
      getVal (ANALYSIS_COLUMNS.map (fun col => (col, outVal row sm gd col))) d = outVal row sm gd d :=
    fun d hd => getVal_map_self _ hd
  have hb := hout "Blocked" blocked_mem_cols
  by_cases htr : (getVal (ANALYSIS_COLUMNS.map (fun col => (col, outVal row sm gd col))) "Blocked").truthy = true
  · rw [if_pos htr]
    rw [hb] at htr
    by_cases hcb : c = "Blocked"
    · rw [if_pos hcb, if_pos htr, hcb]
      exact hb
    · rw [if_neg hcb]
      exact hout c hc
  · rw [if_neg htr]
    rw [hb] at htr
    by_cases hcb : c = "Blocked"
    · rw [if_pos hcb, if_neg htr, hcb, getVal_setVal_self]
    · rw [if_neg hcb, getVal_setVal_ne _ _ hcb]
      exact hout c hc

theorem vendorRowOf_item (r : Row) (item : Value) : getVal (vendorRowOf r item) "Item" = item := rfl

theorem itemRowOf_number (r : Row) (item : Value) (hc oc : String) :
    getVal (itemRowOf r item hc oc) "Number" = item := rfl

theorem packRowOf_item (r : Row) (item : Value) : getVal (packRowOf r item) "Item" = item := rfl

theorem itemVendorGo_items : ∀ (rows : List Row) (seen : List Value),
    (itemVendorGo seen rows).map (fun r => getVal r "Item")
      = dedupGo seen ((rows.map (fun r => getVal r "ITEM")).filter Value.truthy)
  | [], _ => rfl
  | r :: rest, seen => by
      rw [itemVendorGo, List.map_cons, List.filter_cons]
      by_cases ht : (getVal r "ITEM").truthy = true
      · by_cases hs : getVal r "ITEM" ∈ seen
        · rw [if_neg (by simp [ht, hs]), if_pos ht, dedupGo, if_pos hs]
          exact itemVendorGo_items rest seen
        · rw [if_pos (by simp [ht, hs]), if_pos ht, dedupGo, if_neg hs, List.map_cons,
            vendorRowOf_item, itemVendorGo_items rest (getVal r "ITEM" :: seen)]
      · rw [if_neg (by simp [ht]), if_neg ht]
        exact itemVendorGo_items rest seen

theorem itemSheetGo_items (hc oc : String) : ∀ (rows : List Row) (seen : List Value),
    (itemSheetGo hc oc seen rows).map (fun r => getVal r "Number")
      = dedupGo seen ((rows.map (fun r => getVal r "ITEM")).filter Value.truthy)
  | [], _ => rfl
  | r :: rest, seen => by
      rw [itemSheetGo, List.map_cons, List.filter_cons]
      by_cases ht : (getVal r "ITEM").truthy = true
      · by_cases hs : getVal r "ITEM" ∈ seen
        · rw [if_neg (by simp [ht, hs]), if_pos ht, dedupGo, if_pos hs]
          exact itemSheetGo_items hc oc rest seen
        · rw [if_pos (by simp [ht, hs]), if_pos ht, dedupGo, if_neg hs, List.map_cons,
            itemRowOf_number, itemSheetGo_items hc oc rest (getVal r "ITEM" :: seen)]
      · rw [if_neg (by simp [ht]), if_neg ht]
        exact itemSheetGo_items hc oc rest seen

theorem packGo_items : ∀ (rows : List Row) (seen : List Value),
    (packGo seen rows).map (fun r => getVal r "Item")
      = dedupGo seen ((rows.map (fun r => getVal r "ITEM")).filter Value.truthy)
  | [], _ => rfl
  | r :: rest, seen => by
      rw [packGo, List.map_cons, List.filter_cons]
      by_cases ht : (getVal r "ITEM").truthy = true
      · by_cases hs : getVal r "ITEM" ∈ seen
        · rw [if_neg (by simp [ht, hs]), if_pos ht, dedupGo, if_pos hs]
          exact packGo_items rest seen
        · rw [if_pos (by simp [ht, hs]), if_pos ht, dedupGo, if_neg hs, List.map_cons,
            packRowOf_item, packGo_items rest (getVal r "ITEM" :: seen)]
      · rw [if_neg (by simp [ht]), if_neg ht]
        exact packGo_items rest seen

theorem srcStepChecked_eq (row : Row) (k? : Option String)
    (hm : ∀ k, k? = some k → k ∈ row.map Prod.fst) :
    srcStepChecked row k? = some (srcStep row k?) := by
  cases k? with
  | none => rfl
  | some k =>
      rw [srcStepChecked, srcStep]
      by_cases hc : (k ≠ "" && valueNonEmpty (getVal row k)) = true
      · rw [if_pos hc, if_pos hc, getEntry?_eq_getVal (hm k rfl)]
      · rw [if_neg hc, if_neg hc]

theorem suppRowStepChecked_eq (supp : Row) (col : String) :
    suppRowStepChecked supp col = some (suppRowStep supp col) := by
  rw [suppRowStepChecked, suppRowStep]
  by_cases h : supp = []
  · rw [if_neg (not_not_intro h), if_neg (not_not_intro h)]
  · rw [if_pos h, if_pos h]
    exact srcStepChecked_eq supp _ (fun k hk => lookupNorm_mem hk)

theorem suppLookChecked_eq (o : Option Row) (col : String) :
    suppLookChecked o col = some (suppLook o col) := by
  cases o with
  | none => rfl
  | some supp => rw [suppLookChecked, suppLook]; exact suppRowStepChecked_eq supp col

theorem resolveValChecked_eq (row : Row) (sm : List (String × Row)) (gd : Row) (col : String) :
    resolveValChecked row sm gd col = some (resolveVal row sm gd col) := by
  rw [resolveValChecked, srcStepChecked_eq row _ (fun k hk => lookupNorm_mem hk),
    Option.some_bind, resolveVal, resolveSupp]
  by_cases hv : srcStep row (lookupNorm (row.map Prod.fst) (normKey col)) = Value.vnone
  · rw [if_pos hv, if_pos hv, suppLookChecked_eq, Option.some_bind]
  · rw [if_neg hv, if_neg hv, Option.some_bind]

theorem outValChecked_eq (row : Row) (sm : List (String × Row)) (gd : Row) (col : String) :
    outValChecked row sm gd col = some (outVal row sm gd col) := by
  rw [outValChecked, resolveValChecked_eq, Option.map_some', outVal]

theorem canonicalizeRowChecked_eq (sm : List (String × Row)) (gd : Row) (row : Row) :
    canonicalizeRowChecked sm gd row = some (canonicalizeRow sm gd row) := by
  rw [canonicalizeRowChecked,
    mapOption_eq_some (g := fun col => (col, outVal row sm gd col))
      (fun col _ => by rw [outValChecked_eq, Option.map_some']),
    Option.map_some', canonicalizeRow]

theorem suppEntryChecked_eq (r : Row) : suppEntryChecked r = some (suppEntry r) := by
  simp only [suppEntryChecked, suppEntry]
  by_cases hk : (orV (orV (orV (getVal r "ITEM") (getVal r "Item")) (getVal r "SKU"))
      (getVal r "Listing SKU")).truthy = true
  · simp [hk]
  · cases hv : r.map Prod.snd with
    | nil => simp [hk, hv]
    | cons v vs => simp [hk, hv]

theorem mkSuppMapChecked_eq : ∀ l : List Row, mkSuppMapChecked l = some (mkSuppMap l)
  | [] => rfl
  | r :: rest => by
      rw [mkSuppMapChecked, suppEntryChecked_eq r, mkSuppMapChecked_eq rest, mkSuppMap]

/-- Which `(col, matched, pct)` triple, if any, the loop appends to
`present` for a target column. -/
def presentEntry (data : List Row) (cols : List String) (col : String) :
    Option (String × String × ℚ) :=
  match lookupNorm cols (normKey col) with
  | some matched =>
      if matched ≠ "" then
        (if colPct data matched > 0.8 then some (col, matched, colPct data matched) else none)
      else none
  | none => none

/-- Which triple, if any, the loop appends to `partial` for a target column. -/
def partialEntry (data : List Row) (cols : List String) (col : String) :
    Option (String × String × ℚ) :=
  match lookupNorm cols (normKey col) with
  | some matched =>
      if matched ≠ "" then
        (if colPct data matched > 0.8 then none
         else if colPct data matched > 0 then some (col, matched, colPct data matched) else none)
      else none
  | none => none

/-- Whether the loop appends the column to `missing`. -/
def missingEntry (data : List Row) (cols : List String) (col : String) : Option String :=
  match lookupNorm cols (normKey col) with
  | some matched =>
      if matched ≠ "" then
        (if colPct data matched > 0.8 then none
         else if colPct data matched > 0 then none else some col)
      else some col
  | none => some col

theorem detectGo_eq (data : List Row) (cols : List String) :
    ∀ targets : List String,
      detectGo data cols targets =
        ⟨targets.filterMap (presentEntry data cols), targets.filterMap (missingEntry data cols),
         targets.filterMap (partialEntry data cols)⟩
  | [] => rfl
  | col :: rest => by
      rw [detectGo, detectGo_eq data cols rest, List.filterMap_cons, List.filterMap_cons,
        List.filterMap_cons]
      cases hm : lookupNorm cols (normKey col) with
      | none => simp [presentEntry, missingEntry, partialEntry, hm]
      | some matched =>
          by_cases hne : matched ≠ ""
          · by_cases h8 : colPct data matched > 0.8
            · simp [presentEntry, missingEntry, partialEntry, hm, hne, h8]
            · by_cases h0 : colPct data matched > 0
              · simp [presentEntry, missingEntry, partialEntry, hm, hne, h8, h0]
              · simp [presentEntry, missingEntry, partialEntry, hm, hne, h8, h0]
          · simp [presentEntry, missingEntry, partialEntry, hm, hne]

/-- Claim C1: for every sequence of source rows and every global-defaults
mapping, reconciliation with no supplemental table produces exactly one
canonical row per input row, in input order, and every output row's key
list is exactly the 42 target columns. -/
theorem claim_C1_reconcile_shape (src : List Row) (gd : Row) :
    (build_analysis_rows src gd none).length = src.length ∧
    ANALYSIS_COLUMNS.length = 42 ∧
    (build_analysis_rows src gd none).map (fun r => r.map Prod.fst)
      = src.map (fun _ => ANALYSIS_COLUMNS) ∧
    ∀ i : ℕ, (build_analysis_rows src gd none)[i]? = (src[i]?).map (canonicalizeRow [] gd) := by
  refine ⟨?_, by decide, ?_, fun i => ?_⟩
  · rw [build_analysis_rows, List.length_map]
  · rw [build_analysis_rows, List.map_map]
    exact List.map_congr_left (fun r _ => canonicalizeRow_keys [] gd r)
  · rw [build_analysis_rows, List.getElem?_map]
    rfl

/-- Claim C9: the single source row with Item "A1" and Vendor "Acme", no
supplemental table and global default Unit Cost "12.50" reconciles to one
canonical row with ITEM "A1", Vendor "Acme", Unit Cost "12.50", boolean
false Blocked and the empty string in the remaining 38 columns. -/
theorem claim_C9_example :
    build_analysis_rows [[("Item", Value.str "A1"), ("Vendor", Value.str "Acme")]]
        [("Unit Cost", Value.str "12.50")] none
      = [[("ITEM", Value.str "A1"),
       ("Listing SKU", Value.str ""),
       ("Blocked", Value.bool false),
       ("Blocked Notes", Value.str ""),
       ("Brand", Value.str ""),
       ("Product Type", Value.str ""),
       ("Deposco Category", Value.str ""),
       ("Amazon Title", Value.str ""),
       ("eBay Title", Value.str ""),
       ("Amazon Trademark Brand List", Value.str ""),
       ("Amazon Category", Value.str ""),
       ("Store Category", Value.str ""),
       ("Store Featured Category", Value.str ""),
       ("Keywords", Value.str ""),
       ("Amazon Description", Value.str ""),
       ("Applications", Value.str ""),
       ("Replaces", Value.str ""),
       ("Fitment", Value.str ""),
       ("Store Fitment", Value.str ""),
       ("Division Listing Type", Value.str ""),
       ("Length", Value.str ""),
       ("Width", Value.str ""),
       ("Height", Value.str ""),
       ("Weight", Value.str ""),
       ("Images", Value.str ""),
       ("Unit Cost", Value.str "12.50"),
       ("BIN", Value.str ""),
       ("Vendor", Value.str "Acme"),
       ("Source", Value.str ""),
       ("Partslink Numbers", Value.str ""),
       ("Manufacturer Part Number", Value.str ""),
       ("Interchange Part Number", Value.str ""),
       ("Other Part Number", Value.str ""),
       ("OEM Interchange Part Number 1", Value.str ""),
       ("OEM Interchange Part Number 2", Value.str ""),
       ("OEM Interchange Part Number 3", Value.str ""),
       ("OEM Interchange Part Number 4", Value.str ""),
       ("OEM Interchange Part Number 5", Value.str ""),
       ("OEM Interchange Part Number 6", Value.str ""),
       ("OEM Interchange Part Number 7", Value.str ""),
       ("OEM Interchange Part Number 8", Value.str ""),
       ("OEM Interchange Part Number 9", Value.str "")]] ∧
    (((build_analysis_rows [[("Item", Value.str "A1"), ("Vendor", Value.str "Acme")]]
        [("Unit Cost", Value.str "12.50")] none).headD []).filter
          (fun p => p.2 = Value.str "")).length = 38 := by
  constructor
  · decide
  · decide

/-- Claim C2 counterexample: the claim fails as stated.  (1) With row
containing both header "item" (value "A") and header "ITEM" (value None),
the two headers collide under lowercase+trim, the later one wins the
header map, its value is empty, and the reconciled ITEM is "" even though
the row has a non-empty equivalent header.  (2) With Blocked carrying the
non-empty source value 0, the falsy-Blocked coercion overrides the source
value with boolean false. -/
theorem claim_C2_counterexample :
    (normKey "item" = normKey "ITEM" ∧ valueNonEmpty (Value.str "A") = true ∧
      getVal ((build_analysis_rows [[("item", Value.str "A"), ("ITEM", Value.vnone)]] [] none).headD [])
          "ITEM" = Value.str "" ∧ Value.str "" ≠ Value.str "A") ∧
    (valueNonEmpty (Value.num 0) = true ∧
      getVal ((build_analysis_rows [[("Blocked", Value.num 0)]] [] none).headD []) "Blocked"
          = Value.bool false ∧ Value.bool false ≠ Value.num 0) := by
  constructor
  · exact ⟨by decide, by decide, by decide, by decide⟩
  · exact ⟨by decide, by decide, by decide⟩

/-- Claim C2 (amended): for every source row, target column, supplemental
table and global defaults, if the LAST header of the row (in key order)
equivalent to the column under lowercase+trim has a non-empty value, the
reconciled value equals that source value exactly — except that for the
Blocked column a falsy source value is coerced to boolean false. -/
theorem claim_C2_amended_source_wins (src : List Row) (gd : Row) (supp : Option (List Row))
    (i : ℕ) (r : Row) (c k : String) (hi : src[i]? = some r) (hc : c ∈ ANALYSIS_COLUMNS)
    (hk : lookupNorm (r.map Prod.fst) (normKey c) = some k)
    (hv : valueNonEmpty (getVal r k) = true) :
    getVal (((build_analysis_rows src gd supp)[i]?).getD []) c
      = if c = "Blocked" ∧ (getVal r k).truthy = false then Value.bool false else getVal r k := by
  have hrow : (build_analysis_rows src gd supp)[i]?
      = some (canonicalizeRow (suppMapOf supp) gd r) := by
    rw [build_analysis_rows, List.getElem?_map, hi, Option.map_some']
  rw [hrow, Option.getD_some, canonicalizeRow_getVal _ _ _ hc]
  have hkne : k ≠ "" := by
    intro h
    have h2 : normKey c = "" := by rw [← lookupNorm_norm hk, h]; rfl
    exact normKey_cols_ne c hc h2
  have hnn : getVal r k ≠ Value.vnone := by
    intro h
    rw [h] at hv
    exact absurd hv (by decide)
  have hsrc : srcStep r (lookupNorm (r.map Prod.fst) (normKey c)) = getVal r k := by
    rw [hk, srcStep, if_pos (by simp [hkne, hv])]
  have hout : outVal r (suppMapOf supp) gd c = getVal r k := by
    rw [outVal, resolveVal, hsrc, resolveSupp, if_neg hnn, resolveGd, if_neg hnn, if_neg hnn]
  by_cases hb : c = "Blocked"
  · subst hb
    rw [if_pos rfl, hout]
    by_cases ht : (getVal r k).truthy = true
    · rw [if_pos ht, if_neg (by simp [ht])]
    · rw [if_neg ht, if_pos ⟨rfl, by simpa using ht⟩]
  · rw [if_neg hb, if_neg (fun h => hb h.1), hout]

/-- Claim C2 witness: a concrete application of the amended theorem. -/
theorem claim_C2_amended_witness :
    getVal (((build_analysis_rows [[("Vendor", Value.str "Acme")]] [] none)[0]?).getD []) "Vendor"
      = Value.str "Acme" :=
  (claim_C2_amended_source_wins [[("Vendor", Value.str "Acme")]] [] none 0
      [("Vendor", Value.str "Acme")] "Vendor" "Vendor" rfl (by decide) (by decide)
      (by decide)).trans (by decide)

/-- Claim C4 counterexample: Blocked does not always resolve to a boolean;
a truthy non-boolean resolved value (here the string "yes") is kept as-is. -/
theorem claim_C4_counterexample :
    getVal ((build_analysis_rows [[("Blocked", Value.str "yes")]] [] none).headD []) "Blocked"
        = Value.str "yes" ∧
    (getVal ((build_analysis_rows [[("Blocked", Value.str "yes")]] [] none).headD [])
        "Blocked").isBool = false := by
  constructor
  · decide
  · decide

/-- Claim C4 (amended): in every canonical row, Blocked is coerced to
boolean false whenever its resolved value is falsy (in particular it is
never left as the empty string); a truthy resolved value is kept as-is and
may be non-boolean. -/
theorem claim_C4_amended_blocked_coercion (src : List Row) (gd : Row) (supp : Option (List Row))
    (i : ℕ) (r : Row) (hi : src[i]? = some r) :
    getVal (((build_analysis_rows src gd supp)[i]?).getD []) "Blocked"
      = if (outVal r (suppMapOf supp) gd "Blocked").truthy = true
        then outVal r (suppMapOf supp) gd "Blocked" else Value.bool false := by
  have hrow : (build_analysis_rows src gd supp)[i]?
      = some (canonicalizeRow (suppMapOf supp) gd r) := by
    rw [build_analysis_rows, List.getElem?_map, hi, Option.map_some']
  rw [hrow, Option.getD_some, canonicalizeRow_getVal _ _ _ blocked_mem_cols, if_pos rfl]

/-- Claim C4 witness: a concrete application of the amended theorem; an
unset Blocked becomes boolean false, not the empty string. -/
theorem claim_C4_amended_witness :
    getVal (((build_analysis_rows [[("Brand", Value.str "X")]] [] none)[0]?).getD []) "Blocked"
      = Value.bool false :=
  (claim_C4_amended_blocked_coercion [[("Brand", Value.str "X")]] [] none 0
      [("Brand", Value.str "X")] rfl).trans (by decide)

/-- Claim C5: each of the vendor, item-master and pack sheets contains
exactly one row per distinct truthy (non-empty) item identity of the
canonical rows, in first-occurrence order; rows with a falsy/absent
identity are excluded, and no identity appears twice. -/
theorem claim_C5_dedup_invariant (rows : List Row) (hc oc : String) :
    ((build_item_vendor_sheet rows).map (fun r => getVal r "Item")
        = dedupFirst ((rows.map (fun r => getVal r "ITEM")).filter Value.truthy)) ∧
    ((build_item_sheet rows hc oc).map (fun r => getVal r "Number")
        = dedupFirst ((rows.map (fun r => getVal r "ITEM")).filter Value.truthy)) ∧
    ((build_pack_sheet rows).map (fun r => getVal r "Item")
        = dedupFirst ((rows.map (fun r => getVal r "ITEM")).filter Value.truthy)) ∧
    (dedupFirst ((rows.map (fun r => getVal r "ITEM")).filter Value.truthy)).Nodup ∧
    (∀ v : Value, v ∈ dedupFirst ((rows.map (fun r => getVal r "ITEM")).filter Value.truthy)
        ↔ v ∈ (rows.map (fun r => getVal r "ITEM")).filter Value.truthy) := by
  refine ⟨itemVendorGo_items rows [], itemSheetGo_items hc oc rows [], packGo_items rows [],
    dedupGo_nodup _ [], fun v => ?_⟩
  rw [dedupFirst, mem_dedupGo]
  simp

/-- Claim C6: the UPC sheet has exactly one entry per canonical row — its
length always equals the canonical row count, identity-less rows included —
and each entry carries the row's ITEM, its Listing SKU as UPC, and the
constant source label "Listings". -/
theorem claim_C6_upc_sheet (rows : List Row) :
    (build_item_upc_sheet rows).length = rows.length ∧
    ∀ i : ℕ, (build_item_upc_sheet rows)[i]? = (rows[i]?).map (fun r =>
      [("ITEM", getValD r "ITEM" (Value.str "")), ("UPC", getValD r "Listing SKU" (Value.str "")),
       ("Source", Value.str "Listings")]) := by
  constructor
  · rw [build_item_upc_sheet, List.length_map]
  · intro i
    rw [build_item_upc_sheet, List.getElem?_map]

/-- Claim C8: reconciliation is total — the variant of the reconciler in
which every Python subscript is a fallible lookup never fails, on any
source rows, defaults and supplemental data, and returns one row per
source row.  (The four sheet builders contain no fallible operation at
all: they are built from defaulted `.get` lookups only.) -/
theorem claim_C8_totality (source : List Row) (gd : Row) (supp : Option (List Row)) :
    build_analysis_rowsChecked source gd supp = some (build_analysis_rows source gd supp) ∧
    (build_analysis_rows source gd supp).length = source.length := by
  constructor
  · cases supp with
    | none =>
        simp only [build_analysis_rowsChecked, build_analysis_rows, Option.some_bind]
        exact mapOption_eq_some (fun r _ => canonicalizeRowChecked_eq (suppMapOf none) gd r)
    | some sd =>
        simp only [build_analysis_rowsChecked, build_analysis_rows,
          mkSuppMapChecked_eq sd, Option.some_bind]
        exact mapOption_eq_some (fun r _ => canonicalizeRowChecked_eq (suppMapOf (some sd)) gd r)
  · rw [build_analysis_rows, List.length_map]

/-- Claim C10 counterexample: with the source identity only under the
lowercase header "item", the supplemental lookup key is the empty string —
yet a supplemental row whose own identity is whitespace-only lands under
the empty-string key and IS matched, so the claim's "no supplemental row
is matched" fails. -/
theorem claim_C10_counterexample :
    itemKeyOf [("item", Value.str "A1")] = "" ∧
    getVal ((build_analysis_rows [[("item", Value.str "A1")]] []
        (some [[("ITEM", Value.str "   "), ("Weight", Value.str "4.2")]])).headD []) "Weight"
      = Value.str "4.2" ∧
    Value.str "4.2" ≠ Value.str "" := by
  refine ⟨by decide, by decide, by decide⟩

/-- Claim C10 (amended): the supplemental lookup key is read only from the
exact keys "ITEM" then "Item"; when it is the empty string and the
supplemental map has no empty-string key, no supplemental row is matched
and the row reconciles exactly as if no supplemental table were given. -/
theorem claim_C10_amended_identity_lookup (src : List Row) (gd : Row) (sd : List Row)
    (i : ℕ) (r : Row) (hi : src[i]? = some r) (hkey : itemKeyOf r = "")
    (hnone : lookupLast (mkSuppMap sd) "" = none) :
    (build_analysis_rows src gd (some sd))[i]? = (build_analysis_rows src gd none)[i]? := by
  rw [build_analysis_rows, build_analysis_rows, List.getElem?_map, List.getElem?_map, hi,
    Option.map_some', Option.map_some']
  have hout : ∀ col, outVal r (suppMapOf (some sd)) gd col = outVal r (suppMapOf none) gd col := by
    intro col
    have hsupp : suppLook (lookupLast (suppMapOf (some sd)) (itemKeyOf r)) col
        = suppLook (lookupLast (suppMapOf none) (itemKeyOf r)) col := by
      rw [hkey]
      show suppLook (lookupLast (mkSuppMap sd) "") col = suppLook (lookupLast [] "") col
      rw [hnone]
      rfl
    rw [outVal, outVal, resolveVal, resolveVal, resolveSupp, resolveSupp, hsupp]
  rw [canonicalizeRow, canonicalizeRow,
    List.map_congr_left (fun col _ => by rw [hout col] :
      ∀ col ∈ ANALYSIS_COLUMNS,
        (col, outVal r (suppMapOf (some sd)) gd col) = (col, outVal r (suppMapOf none) gd col))]

/-- Claim C10 witness: a concrete application of the amended theorem with a
normally-keyed supplemental table. -/
theorem claim_C10_amended_witness :
    (build_analysis_rows [[("item", Value.str "A1")]] []
        (some [[("ITEM", Value.str "B2"), ("Weight", Value.str "4.2")]]))[0]?
      = (build_analysis_rows [[("item", Value.str "A1")]] [] none)[0]? :=
  claim_C10_amended_identity_lookup [[("item", Value.str "A1")]] []
    [[("ITEM", Value.str "B2"), ("Weight", Value.str "4.2")]] 0 [("item", Value.str "A1")]
    rfl (by decide) (by decide)

theorem mem_map_fst_ite (nm n2 : String) (d : List Row) (c : Prop) [Decidable c] :
    (nm ∈ (if c then [(n2, d)] else []).map Prod.fst) ↔ (c ∧ nm = n2) := by
  by_cases h : c <;> simp [h]

/-- Claim C7 counterexample: with zero canonical rows the workbook is not
empty of sheets — the canonical "Rithum Upload" sheet is still present
(with zero rows), so "a sheet appears iff its row collection is non-empty"
fails. -/
theorem claim_C7_counterexample :
    export_to_bytes [] "" "" = [("Rithum Upload", [])] ∧
    ("Rithum Upload", ([] : List Row)) ∈ export_to_bytes [] "" "" ∧
    ¬ ∀ p ∈ export_to_bytes [] "" "", p.2 ≠ [] := by
  refine ⟨by decide, by decide, fun h => h ("Rithum Upload", []) (by decide) rfl⟩

/-- Claim C7 (amended): each of the four derived sheets appears in the
workbook iff its row collection is non-empty, but the canonical
"Rithum Upload" sheet is always present, empty or not. -/
theorem claim_C7_amended_sheet_presence (rows : List Row) (hc oc : String) :
    ("Rithum Upload", rows) ∈ export_to_bytes rows hc oc ∧
    (("ItemVendor" ∈ (export_to_bytes rows hc oc).map Prod.fst)
        ↔ build_item_vendor_sheet rows ≠ []) ∧
    (("Item" ∈ (export_to_bytes rows hc oc).map Prod.fst)
        ↔ build_item_sheet rows hc oc ≠ []) ∧
    (("Pack" ∈ (export_to_bytes rows hc oc).map Prod.fst)
        ↔ build_pack_sheet rows ≠ []) ∧
    (("ItemUPC" ∈ (export_to_bytes rows hc oc).map Prod.fst)
        ↔ build_item_upc_sheet rows ≠ []) := by
  refine ⟨?_, ?_, ?_, ?_, ?_⟩ <;>
    simp [export_to_bytes, mem_map_fst_ite]

/-- Claim C3: for every row collection, each target column is classified by
its fill ratio under the matched header: ratio above 4/5 is complete
("present"), ratio in (0, 4/5] is partial, ratio 0 or no header match is
missing; the empty collection classifies all 42 columns as missing with the
ratio treated as 0. -/
theorem claim_C3_fill_classification (data : List Row) (c : String)
    (hc : c ∈ ANALYSIS_COLUMNS) :
    detect_fields [] = ⟨[], ANALYSIS_COLUMNS, []⟩ ∧
    (data ≠ [] →
      (lookupNorm (collectCols data) (normKey c) = none → c ∈ (detect_fields data).missing) ∧
      (∀ k, lookupNorm (collectCols data) (normKey c) = some k →
        (colPct data k > 0.8 → (c, k, colPct data k) ∈ (detect_fields data).present) ∧
        (0 < colPct data k ∧ colPct data k ≤ 0.8 →
          (c, k, colPct data k) ∈ (detect_fields data).partialCols) ∧
        (colPct data k = 0 → c ∈ (detect_fields data).missing))) := by
  have hdf : ∀ h : data ≠ [], detect_fields data
      = ⟨ANALYSIS_COLUMNS.filterMap (presentEntry data (collectCols data)),
         ANALYSIS_COLUMNS.filterMap (missingEntry data (collectCols data)),
         ANALYSIS_COLUMNS.filterMap (partialEntry data (collectCols data))⟩ := by
    intro h
    rw [detect_fields, if_neg h, detectGo_eq]
  refine ⟨rfl, fun hne => ⟨?_, fun k hk => ?_⟩⟩
  · intro hnone
    rw [hdf hne]
    exact List.mem_filterMap.mpr ⟨c, hc, by simp only [missingEntry, hnone]⟩
  · have hkne : k ≠ "" := fun h =>
      normKey_cols_ne c hc (by rw [← lookupNorm_norm hk, h]; rfl)
    refine ⟨fun h8 => ?_, fun h0 => ?_, fun hz => ?_⟩
    · rw [hdf hne]
      refine List.mem_filterMap.mpr ⟨c, hc, ?_⟩
      simp only [presentEntry, hk]
      rw [if_pos hkne, if_pos h8]
    · rw [hdf hne]
      refine List.mem_filterMap.mpr ⟨c, hc, ?_⟩
      simp only [partialEntry, hk]
      rw [if_pos hkne, if_neg (not_lt.mpr h0.2), if_pos h0.1]
    · rw [hdf hne]
      refine List.mem_filterMap.mpr ⟨c, hc, ?_⟩
      simp only [missingEntry, hk]
      rw [if_pos hkne, if_neg (by rw [hz]; norm_num), if_neg (by rw [hz]; exact lt_irrefl 0)]

/-- Five concrete rows with the ITEM header filled in four of them: fill
ratio exactly 4/5. -/
def c3Data : List Row :=
  [[("ITEM", Value.str "a")], [("ITEM", Value.str "b")], [("ITEM", Value.str "c")],
   [("ITEM", Value.str "d")], [("ITEM", Value.vnone)]]

/-- Claim C3 witness: at fill ratio exactly 4/5 the ITEM column classifies
as partial (not complete). -/
theorem claim_C3_fill_classification_witness :
    0 < colPct c3Data "ITEM" ∧ colPct c3Data "ITEM" ≤ 0.8 ∧
    ("ITEM", "ITEM", colPct c3Data "ITEM") ∈ (detect_fields c3Data).partialCols := by
  have hpct : colPct c3Data "ITEM" = 4/5 := by
    rw [colPct, show c3Data.length = 5 from by decide,
      show colFilled c3Data "ITEM" = 4 from by decide]
    norm_num
  have h := ((claim_C3_fill_classification c3Data "ITEM" (by decide)).2 (by decide)).2
    "ITEM" (by decide)
  exact ⟨by rw [hpct]; norm_num, by rw [hpct]; norm_num,
    h.2.1 ⟨by rw [hpct]; norm_num, by rw [hpct]; norm_num⟩⟩
